import Mathlib

/-!
Verification development for the PDF text-segmentation engine of the
`rse-elearning-evaluation` repository (`src/preprocessing/pdf_text_extraction.py`).

The Python functions `_is_corrupted_text`, `extract_main_content`,
`extract_references` and `extract_title_from_pdf` are shallowly embedded over
`List Char` (one entry per Unicode code point, matching Python's `str`
indexing).  All the regular expressions in the source apply quantifiers only to
single-character classes, so Python's backtracking `re` semantics (leftmost
match, ordered alternation, greedy/lazy repetition, MULTILINE / IGNORECASE
flags, negative lookahead) are embedded exactly by a small continuation-passing
matcher over a regex AST.

Modelling scope notes (each noted again at the definition it concerns):
* Python's Unicode predicates (`str.isalpha`, `str.lower`, `\s`, `\d`,
  `str.isdigit`, `str.strip`) are modelled on the Latin-1 range, which covers
  the ASCII/German corpus the program processes.
* Python float ratio comparisons (`x/n < 0.30` etc.) are modelled as exact
  rational comparisons.
-/

namespace PdfExtract

/-- Indexing a list by position, `none` when out of range
    (model of Python character access inside the matcher). -/
def charAt : List Char → Nat → Option Char
  | [], _ => none
  | c :: _, 0 => some c
  | _ :: rest, n + 1 => charAt rest n

/-- Model of Python's regex `\s` / `str.strip` whitespace on the Latin-1 range:
    space, tab, newline, vertical tab, form feed, carriage return, the
    information-separator controls 28-31, NEL (133) and NBSP (160). -/
def pyWhite (c : Char) : Bool :=
  c = ' ' || c = '\t' || c = '\n' || c.toNat = 11 || c.toNat = 12 || c = '\r' ||
  c.toNat = 28 || c.toNat = 29 || c.toNat = 30 || c.toNat = 31 ||
  c.toNat = 133 || c.toNat = 160

/-- ASCII decimal digit (model of regex `\d` for this Latin-script corpus). -/
def isDigitB (c : Char) : Bool := '0' ≤ c && c ≤ '9'

def upperAscii (c : Char) : Bool := 'A' ≤ c && c ≤ 'Z'

def lowerAscii (c : Char) : Bool := 'a' ≤ c && c ≤ 'z'

def asciiLetter (c : Char) : Bool := upperAscii c || lowerAscii c

/-- Model of Python `str.lower` / `re.IGNORECASE` case folding on the
    characters appearing in the source's vocabularies
    (ASCII letters, Ä/Ö/Ü and É). -/
def lowerExt (c : Char) : Char :=
  if upperAscii c then Char.ofNat (c.toNat + 32)
  else if c = 'Ä' then 'ä'
  else if c = 'Ö' then 'ö'
  else if c = 'Ü' then 'ü'
  else if c = 'É' then 'é'
  else c

/-- Regex AST covering exactly the constructs used in
    `pdf_text_extraction.py`.  Every quantifier in the source applies to a
    single character class, so repetition carries a class, not a sub-regex. -/
inductive RE where
  /-- empty pattern -/
  | eps : RE
  /-- single character matching the class -/
  | cls : (Char → Bool) → RE
  /-- concatenation -/
  | cat : RE → RE → RE
  /-- ordered alternation (left branch preferred, as in Python `re`) -/
  | alt : RE → RE → RE
  /-- `p{lo,hi}` over a character class; `hi = none` means unbounded;
      the flag is `true` for lazy (`?`-suffixed) repetition -/
  | rep : (Char → Bool) → Nat → Option Nat → Bool → RE
  /-- `^` anchor; the flag is the MULTILINE compile flag -/
  | bolA : Bool → RE
  /-- `$` anchor; the flag is the MULTILINE compile flag -/
  | eolA : Bool → RE
  /-- negative lookahead `(?!r)` -/
  | nla : RE → RE

/-- Length of the maximal run of characters satisfying `p` starting at `pos`
    (the `budget` argument is only a structural-termination bound and is
    always called with the full string length). -/
def runLen (t : List Char) (p : Char → Bool) : Nat → Nat → Nat
  | _, 0 => 0
  | pos, b + 1 =>
    match charAt t pos with
    | some c => if p c then runLen t p (pos + 1) b + 1 else 0
    | none => 0

/-- `[s, s+1, ..., s+n-1]`. -/
def idxRange (s : Nat) : Nat → List Nat
  | 0 => []
  | n + 1 => s :: idxRange (s + 1) n

/-- Largest repetition count feasible at the current position: the bound of
    the quantifier capped by the length of the run of matching characters. -/
def repTop (hi : Option Nat) (maxRun : Nat) : Nat :=
  match hi with
  | some h => min h maxRun
  | none => maxRun

/-- The repetition counts a Python quantifier tries, in backtracking order:
    greedy tries the largest feasible count first, lazy the smallest. -/
def repCounts (lo : Nat) (hi : Option Nat) (lazy : Bool) (maxRun : Nat) : List Nat :=
  if repTop hi maxRun < lo then []
  else if lazy then idxRange lo (repTop hi maxRun - lo + 1)
  else (idxRange lo (repTop hi maxRun - lo + 1)).reverse

/-- First `some` in a list of options (used for the backtracking order of
    repetition counts). -/
def firstSome : List (Option Nat) → Option Nat
  | [] => none
  | o :: rest =>
    match o with
    | some v => some v
    | none => firstSome rest

/-- Backtracking matcher in continuation-passing style, mirroring Python
    `re`'s preference order exactly: `k` receives the position after the
    current sub-pattern; the first continuation success (in backtracking
    order) wins. -/
def matchk (t : List Char) : RE → Nat → (Nat → Option Nat) → Option Nat
  | .eps, pos, k => k pos
  | .cls p, pos, k =>
    match charAt t pos with
    | some c => if p c then k (pos + 1) else none
    | none => none
  | .cat r1 r2, pos, k => matchk t r1 pos (fun q => matchk t r2 q k)
  | .alt r1 r2, pos, k =>
    match matchk t r1 pos k with
    | some v => some v
    | none => matchk t r2 pos k
  | .rep p lo hi lz, pos, k =>
    firstSome ((repCounts lo hi lz (runLen t p pos t.length)).map (fun n => k (pos + n)))
  | .bolA ml, pos, k =>
    if pos = 0 then k pos
    else if ml then
      match charAt t (pos - 1) with
      | some c => if c = '\n' then k pos else none
      | none => none
    else none
  | .eolA ml, pos, k =>
    if pos = t.length then k pos
    else if ml then
      match charAt t pos with
      | some c => if c = '\n' then k pos else none
      | none => none
    else
      -- without MULTILINE, `$` also matches just before a trailing newline
      if pos + 1 = t.length then
        match charAt t pos with
        | some c => if c = '\n' then k pos else none
        | none => none
      else none
  | .nla r, pos, k =>
    match matchk t r pos some with
    | some _ => none
    | none => k pos

/-- End position of the leftmost-at-`pos` match attempt (Python's internal
    match-at-position primitive; also the model of `re.match` at `pos = 0`). -/
def matchTop (r : RE) (t : List Char) (pos : Nat) : Option Nat :=
  matchk t r pos some

/-- Scan for the first position `≥ pos` where the pattern matches;
    returns (start, end).  Model of `re.search` when started at 0. -/
def searchFrom (r : RE) (t : List Char) : Nat → Nat → Option (Nat × Nat)
  | _, 0 => none
  | pos, fuel + 1 =>
    match matchTop r t pos with
    | some e => some (pos, e)
    | none => if pos < t.length then searchFrom r t (pos + 1) fuel else none

/-- Model of `re.search`: leftmost match of `r` in `t`. -/
def pySearch (r : RE) (t : List Char) : Option (Nat × Nat) :=
  searchFrom r t 0 (t.length + 1)

/-- Model of `re.match`: match anchored at position 0, returning (0, end). -/
def pyMatch (r : RE) (t : List Char) : Option (Nat × Nat) :=
  (matchTop r t 0).map (fun e => (0, e))

/-- One scanning pass of `re.finditer`: repeatedly search from `pos`,
    continuing after each match (advancing by one on an empty match, as
    Python's scanner does). -/
def finditerAux (r : RE) (t : List Char) : Nat → Nat → List (Nat × Nat)
  | 0, _ => []
  | fuel + 1, pos =>
    if t.length < pos then []
    else
      match searchFrom r t pos (t.length + 1 - pos) with
      | none => []
      | some (s, e) => (s, e) :: finditerAux r t fuel (if e ≤ s then s + 1 else e)

/-- Model of `re.finditer`: all non-overlapping matches, in document order. -/
def pyFinditer (r : RE) (t : List Char) : List (Nat × Nat) :=
  finditerAux r t (t.length + 1) 0

/-! ### Pattern combinators -/

/-- Concatenation of a pattern list. -/
def seqR (l : List RE) : RE := l.foldr RE.cat RE.eps

/-- Ordered alternation of a pattern list (first alternative preferred). -/
def altR : List RE → RE
  | [] => RE.cls (fun _ => false)
  | [r] => r
  | r :: rest => RE.alt r (altR rest)

/-- Literal character. -/
def chr (c : Char) : RE := RE.cls (fun x => x = c)

/-- Case-sensitive literal string. -/
def lit (s : String) : RE := seqR (s.data.map chr)

/-- Case-insensitive literal string (model of a literal compiled under
    `re.IGNORECASE`). -/
def ciLit (s : String) : RE :=
  seqR (s.data.map (fun c => RE.cls (fun x => lowerExt x = lowerExt c)))

/-- `\s*` -/
def ws0 : RE := RE.rep pyWhite 0 none false

/-- `\s+` -/
def ws1 : RE := RE.rep pyWhite 1 none false

/-- `\d{lo,hi}` (greedy) -/
def digitsR (lo : Nat) (hi : Option Nat) : RE := RE.rep isDigitB lo hi false

/-- `[^\n]`, also regex `.` without DOTALL (no pattern in the source uses DOTALL) -/
def notNL (c : Char) : Bool := !(c = '\n')

/-- `X?` on a sub-pattern (greedy optional) -/
def optR (r : RE) : RE := RE.alt r RE.eps

/-! ### Character classes of the source's patterns -/

/-- `[A-ZÄÖÜ]` (case-sensitive) -/
def upperDE (c : Char) : Bool := upperAscii c || c = 'Ä' || c = 'Ö' || c = 'Ü'

/-- `[a-zäöüß]` (case-sensitive) -/
def lowerDE (c : Char) : Bool := lowerAscii c || c = 'ä' || c = 'ö' || c = 'ü' || c = 'ß'

/-- `[A-ZÄÖÜ]` compiled under IGNORECASE (matches either case) -/
def upperDEci (c : Char) : Bool :=
  let l := lowerExt c
  lowerAscii l || l = 'ä' || l = 'ö' || l = 'ü'

/-- `[A-Za-zÄÖÜäöü]` (first character of a section title) -/
def titleFirst (c : Char) : Bool :=
  asciiLetter c || c = 'Ä' || c = 'Ö' || c = 'Ü' || c = 'ä' || c = 'ö' || c = 'ü'

/-- `[a-zA-ZäöüÄÖÜß]`, the letter class of the corruption detector's
    letter-digit transition pattern -/
def transLetter (c : Char) : Bool :=
  asciiLetter c || c = 'ä' || c = 'ö' || c = 'ü' || c = 'Ä' || c = 'Ö' || c = 'Ü' || c = 'ß'

/-- `[\s–—-]` (whitespace, en dash, em dash, hyphen) -/
def dashWs (c : Char) : Bool := pyWhite c || c = '–' || c = '—' || c = '-'

/-! ### Patterns of `extract_main_content` (start-of-content cascade) -/

/-- `Introduction|Einleitung|Einführung|Background|Motivation|Hintergrund`
    under IGNORECASE (Priority 1 keyword alternation). -/
def introKw6 : RE :=
  altR [ciLit "Introduction", ciLit "Einleitung", ciLit "Einführung",
        ciLit "Background", ciLit "Motivation", ciLit "Hintergrund"]

/-- Priority 1, sub-pattern 1: `^\s*1\s*\n\s*(?:...)` (M, I). -/
def p11 : RE := seqR [.bolA true, ws0, chr '1', ws0, chr '\n', ws0, introKw6]

/-- Priority 1, sub-pattern 2: `^\s*1\.?\s+(?:...)` (M, I). -/
def p12 : RE := seqR [.bolA true, ws0, chr '1', optR (chr '.'), ws1, introKw6]

/-- Priority 1, sub-pattern 3: `^\s*1:\s*(?:...)` (M, I). -/
def p13 : RE := seqR [.bolA true, ws0, chr '1', chr ':', ws0, introKw6]

/-- `^(?:Abstract|Zusammenfassung|Kurzfassung|Summary|Résumé):\s*` (M, I). -/
def patAbstract : RE :=
  seqR [.bolA true,
        altR [ciLit "Abstract", ciLit "Zusammenfassung", ciLit "Kurzfassung",
              ciLit "Summary", ciLit "Résumé"],
        chr ':', ws0]

/-- `Introduction|Einleitung|Einführung|Problemstellung` (I). -/
def introKw4 : RE :=
  altR [ciLit "Introduction", ciLit "Einleitung", ciLit "Einführung",
        ciLit "Problemstellung"]

/-- `Introduction|Einleitung|Einführung` (I). -/
def introKw3 : RE :=
  altR [ciLit "Introduction", ciLit "Einleitung", ciLit "Einführung"]

/-- Priority 2, sub-pattern 1: `^\s*(?:...)\s*$` (M, I). -/
def p21 : RE := seqR [.bolA true, ws0, introKw4, ws0, .eolA true]

/-- Priority 2, sub-pattern 2: `^\s*(?:...):\s*.+$` (M, I). -/
def p22 : RE :=
  seqR [.bolA true, ws0, introKw3, chr ':', ws0, .rep notNL 1 none false, .eolA true]

/-- Priority 2, sub-pattern 3: `^\s*(?:...)[\s–—-]+.{1,50}$` (M, I). -/
def p23 : RE :=
  seqR [.bolA true, ws0, introKw3, .rep dashWs 1 none false,
        .rep notNL 1 (some 50) false, .eolA true]

/-- The keywords-heading vocabulary
    `Keywords|Key\s+words|Schlüsselwörter|Schlagwörter|Keyphrases|Key\s+phrases|Index\s+Terms|Suchbegriffe|Stichwörter|Indexbegriffe`
    under IGNORECASE. -/
def kwWords : RE :=
  altR [ciLit "Keywords",
        seqR [ciLit "Key", ws1, ciLit "words"],
        ciLit "Schlüsselwörter", ciLit "Schlagwörter", ciLit "Keyphrases",
        seqR [ciLit "Key", ws1, ciLit "phrases"],
        seqR [ciLit "Index", ws1, ciLit "Terms"],
        ciLit "Suchbegriffe", ciLit "Stichwörter", ciLit "Indexbegriffe"]

/-- `^(?:Keywords|...):\s*` (M, I), the Priority-3 keywords existence check. -/
def patKeywordsCheck : RE := seqR [.bolA true, kwWords, chr ':', ws0]

/-- `^(?:Keywords|...):\s*.+$` (M, I), the Priority-4 keywords line. -/
def patKeywordsLine : RE :=
  seqR [.bolA true, kwWords, chr ':', ws0, .rep notNL 1 none false, .eolA true]

/-- Numbered-section pattern `^\s*1\.?\s+[A-Za-zÄÖÜäöü][^\n]{0,80}$` (M),
    shared by Priorities 3, 4 and 5. -/
def pn1 : RE :=
  seqR [.bolA true, ws0, chr '1', optR (chr '.'), ws1, .cls titleFirst,
        .rep notNL 0 (some 80) false, .eolA true]

/-- Numbered-section pattern `^\s*1\s*\n\s*[A-Za-zÄÖÜäöü][^\n]{0,80}$` (M),
    shared by Priorities 3, 4 and 5. -/
def pn2 : RE :=
  seqR [.bolA true, ws0, chr '1', ws0, chr '\n', ws0, .cls titleFirst,
        .rep notNL 0 (some 80) false, .eolA true]

/-- Priority 3, Strategy 2:
    `\n\s*\n+\s*(?!Keywords|...)([A-ZÄÖÜ])` compiled with IGNORECASE only.
    Under IGNORECASE the trailing class also matches lowercase letters. -/
def patBlankCap : RE :=
  seqR [chr '\n', ws0, .rep (fun c => c = '\n') 1 none false, ws0,
        .nla kwWords, .cls upperDEci]

/-- Priority 3, Strategy 3: `\.\n([A-ZÄÖÜ])` (no flags). -/
def patPeriodCap : RE := seqR [chr '.', chr '\n', .cls upperDE]

/-- Priority 4 boundary probe `^\s*[A-ZÄÖÜ]` (M). -/
def patFirstUpper : RE := seqR [.bolA true, ws0, .cls upperDE]

/-- Priority 4, Strategy 1a: `^\s*[A-Za-zÄÖÜäöü][^\n]{0,80}$` (M). -/
def patUnnumbered : RE :=
  seqR [.bolA true, ws0, .cls titleFirst, .rep notNL 0 (some 80) false, .eolA true]

/-- Priority 4, Strategy 2: `^\s*[A-ZÄÖÜ][^\n]+$` (M). -/
def patUpperLine : RE :=
  seqR [.bolA true, ws0, .cls upperDE, .rep notNL 1 none false, .eolA true]

/-! ### Patterns of the references-heading detector and validator -/

/-- The bilingual references-heading vocabulary, in source order. -/
def refsKw : RE :=
  altR [ciLit "References", ciLit "Literaturverzeichnis",
        ciLit "Literaturverhzeichnis", ciLit "Literatur", ciLit "Bibliography",
        ciLit "Bibliografie", ciLit "Literature", ciLit "Referenzen",
        ciLit "Quellenverzeichnis", ciLit "Quellen",
        seqR [ciLit "Reference", ws1, ciLit "List"],
        seqR [ciLit "Literaturverzeichnis", ws1, ciLit "und", ws1,
              ciLit "Internetquellen"]]

/-- `^\s*(?:\d+\s*\n\s*|\d+\.?\s+)?(References|...)\d*\s*$` (M, I):
    the references-heading candidate pattern used by both
    `extract_main_content` and `extract_references`. -/
def patRefs : RE :=
  seqR [.bolA true, ws0,
        optR (RE.alt (seqR [digitsR 1 none, ws0, chr '\n', ws0])
                     (seqR [digitsR 1 none, optR (chr '.'), ws1])),
        refsKw, digitsR 0 none, ws0, .eolA true]

/-- Citation style 1 (DeLFI): `\s*\[(?:[A-Za-z]{2,4}|[A-Z][a-z]{1,2})\d{2}\]` (M). -/
def refP1 : RE :=
  seqR [ws0, chr '[',
        RE.alt (RE.rep asciiLetter 2 (some 4) false)
               (seqR [.cls upperAscii, .rep lowerAscii 1 (some 2) false]),
        digitsR 2 (some 2), chr ']']

/-- Citation style 2 (numeric): `^\s*\[\d{1,3}\]` (M). -/
def refP2 : RE := seqR [.bolA true, ws0, chr '[', digitsR 1 (some 3), chr ']']

/-- Citation style 3 (author-year, unbracketed):
    `^[A-ZÄÖÜ][a-zäöüß]+,\s+[A-Z].*?\(\d{4}\)` (M). -/
def refP3 : RE :=
  seqR [.bolA true, .cls upperDE, .rep lowerDE 1 none false, chr ',', ws1,
        .cls upperAscii, .rep notNL 0 none true, chr '(', digitsR 4 (some 4),
        chr ')']

/-- Citation style 4 (author-year, bracketed):
    `\s*\[[A-Z][A-Za-z-]+\s+\d{4}\]` (M). -/
def refP4 : RE :=
  seqR [ws0, chr '[', .cls upperAscii,
        .rep (fun c => asciiLetter c || c = '-') 1 none false, ws1,
        digitsR 4 (some 4), chr ']']

/-- The four citation-entry validation patterns, in source order. -/
def refEntryPats : List RE := [refP1, refP2, refP3, refP4]

/-! ### Patterns of `extract_references` (trailing-matter trimming; no flags,
    so `$` is end-of-string / before a final newline) -/

/-- Pattern A: `\n\d{1,4}\s*$` -/
def patTrailA : RE := seqR [chr '\n', digitsR 1 (some 4), ws0, .eolA false]

/-- Pattern B: `\n\d{1,4}\s+[A-ZÄÖÜ][a-zäöüß]+.*$` -/
def patTrailB : RE :=
  seqR [chr '\n', digitsR 1 (some 4), ws1, .cls upperDE,
        .rep lowerDE 1 none false, .rep notNL 0 none false, .eolA false]

/-- Pattern C: `\n[A-ZÄÖÜ].+\s+\d{1,4}\s*$` -/
def patTrailC : RE :=
  seqR [chr '\n', .cls upperDE, .rep notNL 1 none false, ws1,
        digitsR 1 (some 4), ws0, .eolA false]

/-! ### Patterns of `extract_title_from_pdf` -/

/-- Header marker `\(Hrsg\.\)` (I). -/
def hdr1 : RE := ciLit "(Hrsg.)"

/-- Header marker `Lecture Notes in Informatics` (I). -/
def hdr2 : RE := ciLit "Lecture Notes in Informatics"

/-- Header marker `Gesellschaft für Informatik` (I). -/
def hdr3 : RE := ciLit "Gesellschaft für Informatik"

/-- Standalone page number `^\d{1,3}$` (used with `re.match`). -/
def patPageNum : RE := seqR [.bolA false, digitsR 1 (some 3), .eolA false]

/-- The source's `UPPER` class: `[A-ZÄÖÜÁÉÍÓÚÀÈÌÒÙÂÊÎÔÛÃÕÑĂĂȘȚČŠŽĐŁŃŚŹŻĄĘĆ]`. -/
def upperName (c : Char) : Bool :=
  upperAscii c || "ÄÖÜÁÉÍÓÚÀÈÌÒÙÂÊÎÔÛÃÕÑĂȘȚČŠŽĐŁŃŚŹŻĄĘĆ".data.contains c

/-- The source's `LOWER` class:
    `[a-zäöüßáéíóúàèìòùâêîôûãõñăășțčšžđłńśźżąęć¨´` + backquote + `]`. -/
def lowerName (c : Char) : Bool :=
  lowerAscii c || "äöüßáéíóúàèìòùâêîôûãõñăășțčšžđłńśźżąęć¨´`".data.contains c

/-- `[\s\d*†‡§¶]`, the trailing affiliation-marker class of author lines. -/
def markerChar (c : Char) : Bool :=
  pyWhite c || isDigitB c || c = '*' || c = '†' || c = '‡' || c = '§' || c = '¶'

/-- `[\d*†‡§¶]`, an affiliation-marker character. -/
def affilMark (c : Char) : Bool :=
  isDigitB c || c = '*' || c = '†' || c = '‡' || c = '§' || c = '¶'

/-- `MIDDLE_INITIAL = (?:[A-Z]\.?\s+)?` -/
def midInit : RE := optR (seqR [.cls upperAscii, optR (chr '.'), ws1])

/-- `{UPPER}{LOWER}+`: one capitalized name word. -/
def nameWord : RE := seqR [.cls upperName, .rep lowerName 1 none false]

/-- Author pattern 1 (comma-separated multi-author):
    `^{U}{L}+\s+{MID}{U}{L}+[\s\d*†‡§¶]*,.*{U}{L}+` (no flags). -/
def authorCommas : RE :=
  seqR [.bolA false, nameWord, ws1, midInit, nameWord,
        .rep markerChar 0 none false, chr ',', .rep notNL 0 none false, nameWord]

/-- Author pattern 2 base ("und"/"&" join):
    `(?:[\s\d]und\s|\s&\s){U}{L}+\s+{MID}{U}{L}+` (no flags). -/
def authorUndBase : RE :=
  seqR [RE.alt (seqR [.cls (fun c => pyWhite c || isDigitB c), lit "und", .cls pyWhite])
               (seqR [.cls pyWhite, chr '&', .cls pyWhite]),
        nameWord, ws1, midInit, nameWord]

/-- Affiliation-marker probe `[A-ZÄÖÜ][a-zäöüß]+[\d*†‡§¶]` (no flags). -/
def patAffil : RE :=
  seqR [.cls upperDE, .rep lowerDE 1 none false, .cls affilMark]

/-- Name-start probe `^{U}{L}+\s+{MID}{U}{L}+` (used with `re.match`). -/
def patStartsName : RE := seqR [.bolA false, nameWord, ws1, midInit, nameWord]

/-- Author pattern 3 (single author):
    `^{U}{L}+\s+{MID}{U}{L}+[\s\d*†‡§¶]*$` (used with `re.match`). -/
def authorSingle : RE :=
  seqR [.bolA false, nameWord, ws1, midInit, nameWord,
        .rep markerChar 0 none false, .eolA false]

/-- The institution keyword list of `extract_title_from_pdf`. -/
def institutionKeywords : List String :=
  ["hochschule", "universität", "institut", "fakultät",
   "university", "institute", "faculty", "department",
   "fachbereich", "lehrstuhl", "fraunhofer", "school", "college"]

/-! ### Python string operations -/

/-- Python slice `t[a:b]` (for `0 ≤ a`, `0 ≤ b`; empty when `b ≤ a`,
    clipped at the string end, exactly as in Python). -/
def listSlice (t : List Char) (a b : Nat) : List Char := (t.drop a).take (b - a)

/-- Python `str.strip()` (whitespace as in `pyWhite`). -/
def pyStrip (t : List Char) : List Char :=
  ((t.dropWhile pyWhite).reverse.dropWhile pyWhite).reverse

/-- Python `str.split('\n')`. -/
def splitNL : List Char → List (List Char)
  | [] => [[]]
  | c :: rest =>
    if c = '\n' then [] :: splitNL rest
    else
      match splitNL rest with
      | x :: xs => (c :: x) :: xs
      | [] => [[c]]

/-- nth line of a split, `[]` ( = `""`) when out of range; Python indexing in
    the title loop only ever occurs in bounds. -/
def nthLine (ls : List (List Char)) (i : Nat) : List Char :=
  (match ls, i with
   | [], _ => []
   | l :: _, 0 => l
   | _ :: rest, n + 1 => nthLine rest n)

/-- Python `" ".join(lines)` restricted to `' '` separator. -/
def joinSpace : List (List Char) → List Char
  | [] => []
  | [x] => x
  | x :: y :: rest => x ++ ' ' :: joinSpace (y :: rest)

/-- Python `title.replace('- ', '-')` (left-to-right, non-overlapping). -/
def replaceHyphenSpace : List Char → List Char
  | a :: b :: rest =>
    if a = '-' && b = ' ' then '-' :: replaceHyphenSpace rest
    else a :: replaceHyphenSpace (b :: rest)
  | l => l

mutual
/-- Python `re.sub(r'\s+', ' ', t)`: each maximal whitespace run becomes a
    single space. -/
def collapseWS : List Char → List Char
  | [] => []
  | c :: rest => if pyWhite c then ' ' :: skipWS rest else c :: collapseWS rest

/-- Helper of `collapseWS`: consume the remainder of a whitespace run. -/
def skipWS : List Char → List Char
  | [] => []
  | c :: rest => if pyWhite c then skipWS rest else c :: collapseWS rest
end

/-- Substring test `needle` at the head of `hay`. -/
def startsWithL : List Char → List Char → Bool
  | _, [] => true
  | [], _ :: _ => false
  | a :: as, b :: bs => a = b && startsWithL as bs

/-- Python `needle in hay` substring containment. -/
def containsSub : List Char → List Char → Bool
  | [], needle => needle.isEmpty
  | h :: rest, needle => startsWithL (h :: rest) needle || containsSub rest needle

/-- Python `str.lower()` on the corpus's character range (see `lowerExt`). -/
def lowerStr (t : List Char) : List Char := t.map lowerExt

/-- Python `str.isdigit()` on the Latin-1 range: nonempty and all characters
    decimal digits or the superscript digits ¹ ² ³. -/
def pyIsDigitStr (t : List Char) : Bool :=
  !t.isEmpty && t.all (fun c => isDigitB c || c = '¹' || c = '²' || c = '³')

/-- Count of characters satisfying `p`. -/
def countB (p : Char → Bool) (t : List Char) : Nat := (t.filter p).length

/-! ### `_is_corrupted_text` -/

/-- Python `str.isalpha` modelled on the Latin-1 range: ASCII letters, the
    Latin-1 letters 0xC0-0xFF minus × and ÷, and ª µ º.  (Characters above
    U+00FF are treated as non-alphabetic; the corpus and all concrete inputs
    below stay within Latin-1.) -/
def pyIsAlpha (c : Char) : Bool :=
  asciiLetter c ||
  (192 ≤ c.toNat && c.toNat ≤ 255 && !(c.toNat = 215) && !(c.toNat = 247)) ||
  c.toNat = 170 || c.toNat = 181 || c.toNat = 186

/-- A control character as counted by the detector:
    code point < 32 and not one of `\n`, `\r`, `\t`. -/
def isControl (c : Char) : Bool :=
  c.toNat < 32 && !(c = '\n') && !(c = '\r') && !(c = '\t')

/-- One of the undefined C1 bytes `{129, 141, 143, 144, 157}`. -/
def isUndefC1 (c : Char) : Bool :=
  c.toNat = 129 || c.toNat = 141 || c.toNat = 143 || c.toNat = 144 || c.toNat = 157

/-- `'='` or `';'` (the unusual-punctuation class). -/
def isUnusualPunct (c : Char) : Bool := c = '=' || c = ';'

/-- Number of non-overlapping matches of
    `[a-zA-ZäöüÄÖÜß]\d|\d[a-zA-ZäöüÄÖÜß]` (the model of
    `len(re.findall(...))`: the scanner consumes two characters per match,
    both alternatives having length two). -/
def countTransitions : List Char → Nat
  | a :: b :: rest =>
    if (transLetter a && isDigitB b) || (isDigitB a && transLetter b) then
      countTransitions rest + 1
    else countTransitions (b :: rest)
  | _ => 0

/-- The sample the detector analyses: the first
    `min(sample_size, len(text))` characters. -/
def sampleOf (t : List Char) (sampleSize : Nat) : List Char :=
  t.take (min sampleSize t.length)

/-- `count / total_chars` as an exact rational (model of Python's float
    division; the thresholds 0.30 etc. compare exactly at this precision).
    `mkRat` is used so that the value computes by kernel reduction; it equals
    `(count : ℚ) / (total : ℚ)` (`ratioOf_eq_div` below). -/
def ratioOf (count total : Nat) : ℚ := mkRat count total

/-- The four thresholds 0.30, 0.20, 0.15, 0.03, as kernel-computable
    rationals (shown equal to the decimal literals in `threshold_values`). -/
def thr30 : ℚ := mkRat 30 100
def thr20 : ℚ := mkRat 20 100
def thr15 : ℚ := mkRat 15 100
def thr03 : ℚ := mkRat 3 100

/-- `_is_corrupted_text(text, sample_size=2000)`.  Python computes the two
    leading ratios before branching, but all quantities are pure, so the
    value is the same sequential check. -/
def is_corrupted_text (t : List Char) (sampleSize : Nat := 2000) : Bool :=
  if t.length = 0 then true
  else if ratioOf (countB pyIsAlpha (sampleOf t sampleSize)) (sampleOf t sampleSize).length < thr30 then true
  else if thr20 < ratioOf (countB isControl (sampleOf t sampleSize)) (sampleOf t sampleSize).length then true
  else if thr15 < ratioOf (countTransitions (sampleOf t sampleSize)) (sampleOf t sampleSize).length then true
  else if 0 < countB isUndefC1 (sampleOf t sampleSize) then true
  else if thr03 < ratioOf (countB isUnusualPunct (sampleOf t sampleSize)) (sampleOf t sampleSize).length then true
  else false

/-- The corruption condition exactly as the specification words it: the text
    is empty, or, over the sample of the first `min(2000, length)`
    characters, the alphabetic ratio is below 0.30, or the control-character
    ratio exceeds 0.20, or the regex-counted letter-digit transition ratio
    exceeds 0.15, or a forbidden byte is present, or the `=`/`;` ratio
    exceeds 0.03. -/
def corruptedSpec (t : List Char) : Prop :=
  t = [] ∨
  (countB pyIsAlpha (sampleOf t 2000) : ℚ) / ((sampleOf t 2000).length : ℚ) < 0.30 ∨
  0.20 < (countB isControl (sampleOf t 2000) : ℚ) / ((sampleOf t 2000).length : ℚ) ∨
  0.15 < (countTransitions (sampleOf t 2000) : ℚ) / ((sampleOf t 2000).length : ℚ) ∨
  0 < countB isUndefC1 (sampleOf t 2000) ∨
  0.03 < (countB isUnusualPunct (sampleOf t 2000) : ℚ) / ((sampleOf t 2000).length : ℚ)

/-- Division with an explicit absence value on a zero denominator: the model
    of Python `/`, which raises `ZeroDivisionError` instead of returning. -/
def ratioChecked (count total : Nat) : Option ℚ :=
  if total = 0 then none else some (ratioOf count total)

/-- `_is_corrupted_text` with every division checked: `none` models a raised
    exception.  The two leading ratios are computed (and hence checked)
    before the first threshold branch, exactly as in the source. -/
def is_corrupted_text_checked (t : List Char) (sampleSize : Nat := 2000) : Option Bool :=
  if t.length = 0 then some true
  else
    (ratioChecked (countB pyIsAlpha (sampleOf t sampleSize)) (sampleOf t sampleSize).length).bind fun a =>
    (ratioChecked (countB isControl (sampleOf t sampleSize)) (sampleOf t sampleSize).length).bind fun c =>
    if a < thr30 then some true
    else if thr20 < c then some true
    else
      (ratioChecked (countTransitions (sampleOf t sampleSize)) (sampleOf t sampleSize).length).bind fun tr =>
      if thr15 < tr then some true
      else if 0 < countB isUndefC1 (sampleOf t sampleSize) then some true
      else
        (ratioChecked (countB isUnusualPunct (sampleOf t sampleSize)) (sampleOf t sampleSize).length).bind fun u =>
        if thr03 < u then some true
        else some false

/-! ### `extract_main_content`: the start-of-content priority cascade -/

/-- The Python loop `for pattern in patterns: m = re.search(...); if m:
    start_pos = m.start(); break` over a pattern list. -/
def firstMatchStart (pats : List RE) (t : List Char) : Option Nat :=
  match pats with
  | [] => none
  | p :: rest =>
    match pySearch p t with
    | some (s, _) => some s
    | none => firstMatchStart rest t

/-- Priority 1: number + introduction keyword, three sub-patterns in list
    order. -/
def priority1Start (t : List Char) : Option Nat :=
  firstMatchStart [p11, p12, p13] t

/-- Priority 2: standalone keyword line, searched in a bounded region (after
    the abstract heading when present, else the first 2000 characters);
    a region match start is translated back by the region offset. -/
def priority2Start (t : List Char) : Option Nat :=
  match pySearch patAbstract t with
  | some (astart, _) =>
    (match firstMatchStart [p21, p22, p23]
        (listSlice t astart (min t.length (astart + 2000))) with
     | some s => some (astart + s)
     | none => none)
  | none =>
    firstMatchStart [p21, p22, p23] (t.take 2000)

/-- Priority 3, Strategy 3: Step 2a searches after the 400-character minimum
    (only when the remaining text is longer than that); Step 2b falls back to
    the whole remaining text when 2a did not fire or did not match.  The
    group of the three-character `patPeriodCap` starts 2 after the match
    start. -/
def p3Strategy3 (t : List Char) (aend : Nat) : Option Nat :=
  if 400 < (t.drop aend).length then
    match pySearch patPeriodCap ((t.drop aend).drop 400) with
    | some (s, _) => some (aend + 400 + (s + 2))
    | none =>
      match pySearch patPeriodCap (t.drop aend) with
      | some (s, _) => some (aend + (s + 2))
      | none => none
  else
    match pySearch patPeriodCap (t.drop aend) with
    | some (s, _) => some (aend + (s + 2))
    | none => none

/-- Priority 3: below the abstract, only when no keywords heading exists.
    Strategy 1 numbered heading; Strategy 2 blank line + capital (the group
    `([A-ZÄÖÜ])` is the final one-character element of `patBlankCap`, so its
    start is the match end minus 1); Strategy 3 as in `p3Strategy3`. -/
def priority3Start (t : List Char) : Option Nat :=
  if (pySearch patKeywordsCheck t).isSome then none
  else
    match pySearch patAbstract t with
    | none => none
    | some (_, aend) =>
      match firstMatchStart [pn1, pn2] (t.drop aend) with
      | some s => some (aend + s)
      | none =>
        match pySearch patBlankCap (t.drop aend) with
        | some (_, e) => some (aend + (e - 1))
        | none => p3Strategy3 t aend

/-- Priority 4 search bound: offset of the first capital-letter line plus a
    150-character buffer, or a fixed 150 when none exists. -/
def p4SearchLimit (t : List Char) (kend : Nat) : Nat :=
  match pySearch patFirstUpper (t.drop kend) with
  | some (s, _) => s + 150
  | none => 150

/-- Priority 4 search region: `remaining_text[:min(search_limit, len(remaining_text))]`. -/
def p4Region (t : List Char) (kend : Nat) : List Char :=
  (t.drop kend).take (min (p4SearchLimit t kend) (t.drop kend).length)

/-- Priority 4: below the keywords line; the search region is bounded by the
    first capital-letter line plus a 150-character buffer. -/
def priority4Start (t : List Char) : Option Nat :=
  match pySearch patKeywordsLine t with
  | none => none
  | some (_, kend) =>
    match pySearch patUnnumbered (p4Region t kend) with
    | some (s, _) => some (kend + s)
    | none =>
      match firstMatchStart [pn1, pn2] (p4Region t kend) with
      | some s => some (kend + s)
      | none =>
        match pySearch patUpperLine (t.drop kend) with
        | some (s, _) => some (kend + s)
        | none => none

/-- Priority 5: number + arbitrary section title, on the whole document. -/
def priority5Start (t : List Char) : Option Nat :=
  firstMatchStart [pn1, pn2] t

/-- STEP 1 of `extract_main_content`: the ordered priority cascade producing
    `start_pos` (Priority 6 is commented out in the source). -/
def findStartPos (t : List Char) : Option Nat :=
  match priority1Start t with
  | some s => some s
  | none =>
    match priority2Start t with
    | some s => some s
    | none =>
      match priority3Start t with
      | some s => some s
      | none =>
        match priority4Start t with
        | some s => some s
        | none => priority5Start t

/-! ### References-heading selection (shared verbatim by the end-boundary
    step of `extract_main_content` and by `extract_references`; the two code
    blocks in the source are identical, lines 431-468 and 510-543). -/

/-- `int(text_length * 0.50)`: `n * 0.50` is exact in floating point, so this
    is exactly `n / 2` rounded down. -/
def minPosition (t : List Char) : Nat := t.length / 2

/-- All heading candidates: `finditer` matches of `patRefs` whose start is in
    the last 50% of the document. -/
def refsCandidates (t : List Char) : List (Nat × Nat) :=
  (pyFinditer patRefs t).filter (fun m => decide (minPosition t ≤ m.1))

/-- Candidate validation: at least one citation-entry pattern matches in the
    1500 characters following the heading. -/
def validRefs (t : List Char) (m : Nat × Nat) : Bool :=
  refEntryPats.any (fun p =>
    (pySearch p (listSlice t m.2 (min t.length (m.2 + 1500)))).isSome)

/-- The Python loop `for m in reversed(candidates): if valid: match = m;
    break`, written as a right-to-left recursion: the result is the LAST
    element satisfying `p`. -/
def selectLastValid (p : Nat × Nat → Bool) : List (Nat × Nat) → Option (Nat × Nat)
  | [] => none
  | x :: rest =>
    match selectLastValid p rest with
    | some r => some r
    | none => if p x then some x else none

/-- The selected references heading: the last validated candidate. -/
def selectRefsHeading (t : List Char) : Option (Nat × Nat) :=
  selectLastValid (validRefs t) (refsCandidates t)

/-- STEP 2 of `extract_main_content`: `end_pos` is the selected heading's
    match start, or the document length when no candidate validates. -/
def findEndPos (t : List Char) : Nat :=
  match selectRefsHeading t with
  | some m => m.1
  | none => t.length

/-- `extract_main_content(raw_text)`. -/
def extract_main_content (t : List Char) : Option (List Char) :=
  if is_corrupted_text t then none
  else
    match findStartPos t with
    | none => none
    | some s => some (listSlice t s (findEndPos t))

/-! ### `extract_references` -/

/-- `extract_references(raw_text)`: the text after the selected heading,
    stripped, with one trailing-matter line removed by the first of three
    patterns that matches. -/
def extract_references (t : List Char) : Option (List Char) :=
  if is_corrupted_text t then none
  else
    match selectRefsHeading t with
    | none => none
    | some m =>
      let refs := pyStrip (t.drop m.2)
      match pySearch patTrailA refs with
      | some (s, _) => some (pyStrip (refs.take s))
      | none =>
        match pySearch patTrailB refs with
        | some (s, _) => some (pyStrip (refs.take s))
        | none =>
          match pySearch patTrailC refs with
          | some (s, _) => some (pyStrip (refs.take s))
          | none => some (pyStrip refs)

/-! ### `extract_title_from_pdf` -/

/-- Is a stripped line one of the three header markers? -/
def isHeaderLine (ls : List Char) : Bool :=
  (pySearch hdr1 ls).isSome || (pySearch hdr2 ls).isSome || (pySearch hdr3 ls).isSome

/-- Is a stripped line a bare page number (`re.match(r'^\d{1,3}$', ...)`)? -/
def isPageNumLine (ls : List Char) : Bool := (pyMatch patPageNum ls).isSome

/-- STEP 1: walk `enumerate(lines[:5])`; empty lines are passed over without
    moving `start_idx`; header/page-number lines move it past themselves; the
    first other line stops the walk. -/
def headerSkipGo (lines : List (List Char)) : Nat → Nat → Nat → Nat
  | 0, _, acc => acc
  | fuel + 1, i, acc =>
    if i < min 5 lines.length then
      let ls := pyStrip (nthLine lines i)
      if ls.isEmpty then headerSkipGo lines fuel (i + 1) acc
      else if isHeaderLine ls || isPageNumLine ls then
        headerSkipGo lines fuel (i + 1) (i + 1)
      else acc
    else acc

/-- STEP 1 result: `start_idx` after header skipping. -/
def headerSkip (lines : List (List Char)) : Nat := headerSkipGo lines 5 0 0

/-- STEP 1.5: advance over at most `MAX_BLANK_LINES = 10` blank lines. -/
def skipBlanksGo (lines : List (List Char)) : Nat → Nat → Nat
  | s, 0 => s
  | s, fuel + 1 =>
    if s < lines.length then
      if (pyStrip (nthLine lines s)).isEmpty then skipBlanksGo lines (s + 1) fuel
      else s
    else s

/-- STEP 1.5 result. -/
def skipBlanks (lines : List (List Char)) (s : Nat) : Nat := skipBlanksGo lines s 10

/-- The conservative lookahead of author pattern 3: the first non-empty of
    the next two lines, tested for a multi-author shape. -/
def nextHasMultipleAuthors (lines : List (List Char)) (i : Nat) : Bool :=
  go (idxRange (i + 1) (min (i + 3) lines.length - (i + 1)))
where
  go : List Nat → Bool
    | [] => false
    | j :: rest =>
      let nl := pyStrip (nthLine lines j)
      if nl.isEmpty then go rest
      else
        (pySearch authorCommas nl).isSome ||
        ((pySearch authorUndBase nl).isSome && (pySearch patAffil nl).isSome)

/-- Institution-keyword test on the lowercased line. -/
def hasInstitutionKeyword (ls : List Char) : Bool :=
  institutionKeywords.any (fun kw => containsSub (lowerStr ls) kw.data)

/-- STEP 2: the title-line accumulation loop body, iterated over the index
    range `range(start_idx, min(len(lines), start_idx + max_lines + 3))`.
    Mirrors the source's control flow: author-byline checks may `break`
    (return the accumulator); the `max_lines` check `break`s before
    appending; qualifying lines (non-empty, longer than 5, not pure digits)
    are appended; all other lines are passed over. -/
def collectGo (lines : List (List Char)) (maxLines : Nat) :
    List Nat → List (List Char) → List (List Char)
  | [], acc => acc
  | i :: rest, acc =>
    let ls := pyStrip (nthLine lines i)
    if ls.isEmpty then collectGo lines maxLines rest acc
    else if (pySearch authorCommas ls).isSome then acc
    else if (pySearch authorUndBase ls).isSome &&
            ((pySearch patAffil ls).isSome && (pyMatch patStartsName ls).isSome) then acc
    else if (pyMatch authorSingle ls).isSome &&
            !hasInstitutionKeyword ls &&
            !nextHasMultipleAuthors lines i then acc
    else if maxLines ≤ acc.length then acc
    else if !ls.isEmpty && 5 < ls.length && !pyIsDigitStr ls then
      collectGo lines maxLines rest (acc ++ [ls])
    else collectGo lines maxLines rest acc

/-- The accumulated title lines of `extract_title_from_pdf` (STEPs 1-2). -/
def titleLinesOf (t : List Char) (maxLines : Nat := 5) (maxChars : Nat := 800) :
    List (List Char) :=
  let lines := splitNL (t.take maxChars)
  let s1 := skipBlanks lines (headerSkip lines)
  collectGo lines maxLines
    (idxRange s1 (min lines.length (s1 + maxLines + 3) - s1)) []

/-- `extract_title_from_pdf(raw_text, max_lines=5, max_chars=800)`. -/
def extract_title_from_pdf (t : List Char) (maxLines : Nat := 5)
    (maxChars : Nat := 800) : Option (List Char) :=
  if is_corrupted_text t then none
  else
    let titleLines := titleLinesOf t maxLines maxChars
    if titleLines.isEmpty then none
    else some (pyStrip (collapseWS (replaceHyphenSpace (joinSpace titleLines))))

/-! ### Exception-checked variants (for the totality claim): the corruption
    detector is the only place the source divides, every other construct
    (slicing, regex search, list indexing in bounds) is total in Python.
    `none` at the outer layer models a raised exception. -/

/-- `extract_main_content` with checked division in the corruption gate. -/
def extract_main_content_checked (t : List Char) : Option (Option (List Char)) :=
  (is_corrupted_text_checked t).map fun c =>
    if c then none
    else
      match findStartPos t with
      | none => none
      | some s => some (listSlice t s (findEndPos t))

/-- `extract_references` with checked division in the corruption gate. -/
def extract_references_checked (t : List Char) : Option (Option (List Char)) :=
  (is_corrupted_text_checked t).map fun c =>
    if c then none
    else
      match selectRefsHeading t with
      | none => none
      | some m =>
        let refs := pyStrip (t.drop m.2)
        match pySearch patTrailA refs with
        | some (s, _) => some (pyStrip (refs.take s))
        | none =>
          match pySearch patTrailB refs with
          | some (s, _) => some (pyStrip (refs.take s))
          | none =>
            match pySearch patTrailC refs with
            | some (s, _) => some (pyStrip (refs.take s))
            | none => some (pyStrip refs)

/-- `extract_title_from_pdf` with checked division in the corruption gate. -/
def extract_title_from_pdf_checked (t : List Char) : Option (Option (List Char)) :=
  (is_corrupted_text_checked t).map fun c =>
    if c then none
    else
      let titleLines := titleLinesOf t 5 800
      if titleLines.isEmpty then none
      else some (pyStrip (collapseWS (replaceHyphenSpace (joinSpace titleLines))))

/-! ## Lemmas about the matcher: every match lies inside the string -/

theorem charAt_lt_length {t : List Char} : ∀ {i c}, charAt t i = some c → i < t.length := by
  induction t with
  | nil => intro i c h; simp [charAt] at h
  | cons a rest ih =>
    intro i c h
    cases i with
    | zero => simp
    | succ n =>
      simp only [charAt] at h
      have := ih h
      simp only [List.length_cons]
      omega

theorem runLen_le (t : List Char) (p : Char → Bool) :
    ∀ b pos, runLen t p pos b ≤ t.length - pos := by
  intro b
  induction b with
  | zero => intro pos; simp [runLen]
  | succ n ih =>
    intro pos
    simp only [runLen]
    split
    · rename_i c heq
      split
      · have h1 := ih (pos + 1)
        have h2 := charAt_lt_length heq
        omega
      · omega
    · omega

theorem mem_idxRange : ∀ {n s x : Nat}, x ∈ idxRange s n → s ≤ x ∧ x < s + n := by
  intro n
  induction n with
  | zero => intro s x h; simp [idxRange] at h
  | succ m ih =>
    intro s x h
    simp only [idxRange, List.mem_cons] at h
    rcases h with h | h
    · omega
    · have := ih h; omega

theorem repTop_le (hi : Option Nat) (mr : Nat) : repTop hi mr ≤ mr := by
  cases hi with
  | some h => simp [repTop]
  | none => simp [repTop]

theorem repCounts_le_max {lo : Nat} {hi : Option Nat} {lz : Bool} {mr n : Nat}
    (h : n ∈ repCounts lo hi lz mr) : n ≤ mr := by
  simp only [repCounts] at h
  split at h
  · simp at h
  · have hmem : n ∈ idxRange lo (repTop hi mr - lo + 1) := by
      split at h
      · exact h
      · exact List.mem_reverse.mp h
    have h1 := mem_idxRange hmem
    have h2 := repTop_le hi mr
    omega

theorem firstSome_eq_some_mem : ∀ {l : List (Option Nat)} {v : Nat},
    firstSome l = some v → some v ∈ l := by
  intro l
  induction l with
  | nil => intro v h; simp [firstSome] at h
  | cons o rest ih =>
    intro v h
    simp only [firstSome] at h
    cases o with
    | some w => simp_all
    | none => simp [ih h]

theorem matchk_bound (t : List Char) (r : RE) :
    ∀ pos k v, pos ≤ t.length → matchk t r pos k = some v →
      ∃ q, pos ≤ q ∧ q ≤ t.length ∧ k q = some v := by
  induction r with
  | eps =>
    intro pos k v hp h
    exact ⟨pos, le_refl _, hp, h⟩
  | cls p =>
    intro pos k v hp h
    simp only [matchk] at h
    split at h
    · rename_i c heq
      split at h
      · exact ⟨pos + 1, Nat.le_succ _, charAt_lt_length heq, h⟩
      · exact Option.noConfusion h
    · exact Option.noConfusion h
  | cat r1 r2 ih1 ih2 =>
    intro pos k v hp h
    simp only [matchk] at h
    obtain ⟨q1, h1a, h1b, h1c⟩ := ih1 pos _ v hp h
    obtain ⟨q2, h2a, h2b, h2c⟩ := ih2 q1 k v h1b h1c
    exact ⟨q2, le_trans h1a h2a, h2b, h2c⟩
  | alt r1 r2 ih1 ih2 =>
    intro pos k v hp h
    simp only [matchk] at h
    split at h
    · rename_i w hm
      injection h with h'
      subst h'
      exact ih1 pos k _ hp hm
    · exact ih2 pos k v hp h
  | rep p lo hi lz =>
    intro pos k v hp h
    simp only [matchk] at h
    have hmem := firstSome_eq_some_mem h
    obtain ⟨n, hn, hkn⟩ := List.mem_map.mp hmem
    have hle : n ≤ runLen t p pos t.length := repCounts_le_max hn
    have hrl := runLen_le t p t.length pos
    exact ⟨pos + n, Nat.le_add_right _ _, by omega, hkn⟩
  | bolA ml =>
    intro pos k v hp h
    simp only [matchk] at h
    split at h
    · exact ⟨pos, le_refl _, hp, h⟩
    · split at h
      · split at h
        · rename_i c heq
          split at h
          · exact ⟨pos, le_refl _, hp, h⟩
          · exact Option.noConfusion h
        · exact Option.noConfusion h
      · exact Option.noConfusion h
  | eolA ml =>
    intro pos k v hp h
    simp only [matchk] at h
    split at h
    · exact ⟨pos, le_refl _, hp, h⟩
    · split at h
      · split at h
        · rename_i c heq
          split at h
          · exact ⟨pos, le_refl _, hp, h⟩
          · exact Option.noConfusion h
        · exact Option.noConfusion h
      · split at h
        · split at h
          · rename_i c heq
            split at h
            · exact ⟨pos, le_refl _, hp, h⟩
            · exact Option.noConfusion h
          · exact Option.noConfusion h
        · exact Option.noConfusion h
  | nla r ih =>
    intro pos k v hp h
    simp only [matchk] at h
    split at h
    · exact Option.noConfusion h
    · exact ⟨pos, le_refl _, hp, h⟩

/-- A successful match attempt at `pos ≤ len` ends within the string. -/
theorem matchTop_bound {r : RE} {t : List Char} {pos e : Nat}
    (hp : pos ≤ t.length) (h : matchTop r t pos = some e) :
    pos ≤ e ∧ e ≤ t.length := by
  obtain ⟨q, hq1, hq2, hq3⟩ := matchk_bound t r pos some e hp h
  injection hq3 with hq3
  subst hq3
  exact ⟨hq1, hq2⟩

theorem searchFrom_some {r : RE} {t : List Char} :
    ∀ {fuel pos s e}, pos ≤ t.length → searchFrom r t pos fuel = some (s, e) →
      pos ≤ s ∧ s ≤ t.length ∧ matchTop r t s = some e := by
  intro fuel
  induction fuel with
  | zero => intro pos s e hp h; simp [searchFrom] at h
  | succ n ih =>
    intro pos s e hp h
    simp only [searchFrom] at h
    split at h
    · rename_i e' hm
      injection h with h'
      obtain ⟨rfl, rfl⟩ := Prod.mk.inj h'
      exact ⟨le_refl _, hp, hm⟩
    · split at h
      · rename_i hlt
        obtain ⟨h1, h2, h3⟩ := ih (by omega) h
        exact ⟨by omega, h2, h3⟩
      · exact Option.noConfusion h

/-- A `re.search` result lies inside the string. -/
theorem pySearch_bound {r : RE} {t : List Char} {s e : Nat}
    (h : pySearch r t = some (s, e)) :
    s ≤ e ∧ e ≤ t.length ∧ matchTop r t s = some e := by
  obtain ⟨_, h2, h3⟩ := searchFrom_some (Nat.zero_le _) h
  obtain ⟨h4, h5⟩ := matchTop_bound h2 h3
  exact ⟨h4, h5, h3⟩

/-- Every `finditer` match lies inside the string. -/
theorem finditerAux_bound {r : RE} {t : List Char} :
    ∀ {fuel pos s e}, (s, e) ∈ finditerAux r t fuel pos →
      s ≤ e ∧ e ≤ t.length := by
  intro fuel
  induction fuel with
  | zero => intro pos s e h; simp [finditerAux] at h
  | succ n ih =>
    intro pos s e h
    simp only [finditerAux] at h
    split at h
    · simp at h
    · rename_i hpos
      split at h
      · simp at h
      · rename_i s' e' hse
        simp only [List.mem_cons] at h
        rcases h with h | h
        · obtain ⟨rfl, rfl⟩ := Prod.mk.inj h
          obtain ⟨_, h2, h3⟩ := searchFrom_some (by omega) hse
          exact matchTop_bound h2 h3
        · exact ih h

/-! ## The last-validated-candidate selection -/

theorem selectLastValid_none {p : Nat × Nat → Bool} :
    ∀ {l}, selectLastValid p l = none → ∀ x ∈ l, p x = false := by
  intro l
  induction l with
  | nil => intro _ x hx; simp at hx
  | cons a rest ih =>
    intro h x hx
    simp only [selectLastValid] at h
    split at h
    · exact Option.noConfusion h
    · rename_i hrest
      simp only [List.mem_cons] at hx
      rcases hx with rfl | hx
      · split at h
        · exact Option.noConfusion h
        · simpa using ‹¬ p x = true›
      · exact ih hrest x hx

/-- The result of `selectLastValid` is a validated element, and everything
    after it in the list fails validation (i.e. it is the LAST valid one). -/
theorem selectLastValid_some {p : Nat × Nat → Bool} :
    ∀ {l m}, selectLastValid p l = some m →
      p m = true ∧ ∃ l1 l2, l = l1 ++ m :: l2 ∧ ∀ x ∈ l2, p x = false := by
  intro l
  induction l with
  | nil => intro m h; simp [selectLastValid] at h
  | cons a rest ih =>
    intro m h
    simp only [selectLastValid] at h
    split at h
    · rename_i r hrest
      injection h with h'
      subst h'
      obtain ⟨hp, l1, l2, heq, hpost⟩ := ih hrest
      exact ⟨hp, a :: l1, l2, by rw [heq]; rfl, hpost⟩
    · rename_i hrest
      split at h
      · rename_i hpa
        injection h with h'
        subst h'
        exact ⟨hpa, [], rest, rfl, selectLastValid_none hrest⟩
      · exact Option.noConfusion h

/-! ## Bounds for the computed offsets -/

theorem listSlice_length (t : List Char) (a b : Nat) :
    (listSlice t a b).length = min (b - a) (t.length - a) := by
  simp [listSlice, List.length_take, List.length_drop]

theorem firstMatchStart_bound {t : List Char} :
    ∀ {pats s}, firstMatchStart pats t = some s → s ≤ t.length := by
  intro pats
  induction pats with
  | nil => intro s h; simp [firstMatchStart] at h
  | cons p rest ih =>
    intro s h
    simp only [firstMatchStart] at h
    split at h
    · rename_i s' e' hse
      injection h with h'
      subst h'
      obtain ⟨h1, h2, _⟩ := pySearch_bound hse
      omega
    · exact ih h

/-- `patPeriodCap` consumes exactly its three one-character elements, so a
    match at `s` implies the character at `s + 2` exists. -/
theorem patPeriodCap_consumes {u : List Char} {s e : Nat}
    (h : matchTop patPeriodCap u s = some e) : s + 2 < u.length := by
  simp only [matchTop, patPeriodCap, seqR, List.foldr, chr, matchk] at h
  split at h
  · rename_i c1 h1
    split at h
    · split at h
      · rename_i c2 h2
        split at h
        · split at h
          · rename_i c3 h3
            exact charAt_lt_length h3
          · exact Option.noConfusion h
        · exact Option.noConfusion h
      · exact Option.noConfusion h
    · exact Option.noConfusion h
  · exact Option.noConfusion h

theorem priority1Start_le {t : List Char} {s : Nat}
    (h : priority1Start t = some s) : s ≤ t.length :=
  firstMatchStart_bound h

theorem priority2Start_le {t : List Char} {s : Nat}
    (h : priority2Start t = some s) : s ≤ t.length := by
  simp only [priority2Start] at h
  split at h
  · rename_i astart aend hab
    split at h
    · rename_i s' hs'
      injection h with h'
      subst h'
      have hb := firstMatchStart_bound hs'
      rw [listSlice_length] at hb
      obtain ⟨h1, h2, _⟩ := pySearch_bound hab
      omega
    · exact Option.noConfusion h
  · have hb := firstMatchStart_bound h
    rw [List.length_take] at hb
    omega

theorem p3Strategy3_le {t : List Char} {aend s : Nat}
    (ha : aend ≤ t.length) (h : p3Strategy3 t aend = some s) : s ≤ t.length := by
  simp only [p3Strategy3] at h
  split at h
  · rename_i hlong
    split at h
    · rename_i s' e' hse
      injection h with h'
      subst h'
      obtain ⟨_, _, hm⟩ := pySearch_bound hse
      have hc := patPeriodCap_consumes hm
      rw [List.length_drop, List.length_drop] at hc
      omega
    · split at h
      · rename_i s' e' hse
        injection h with h'
        subst h'
        obtain ⟨_, _, hm⟩ := pySearch_bound hse
        have hc := patPeriodCap_consumes hm
        rw [List.length_drop] at hc
        omega
      · exact Option.noConfusion h
  · split at h
    · rename_i s' e' hse
      injection h with h'
      subst h'
      obtain ⟨_, _, hm⟩ := pySearch_bound hse
      have hc := patPeriodCap_consumes hm
      rw [List.length_drop] at hc
      omega
    · exact Option.noConfusion h

theorem priority3Start_le {t : List Char} {s : Nat}
    (h : priority3Start t = some s) : s ≤ t.length := by
  simp only [priority3Start] at h
  split at h
  · exact Option.noConfusion h
  · split at h
    · exact Option.noConfusion h
    · rename_i astart aend hab
      have haend : aend ≤ t.length := (pySearch_bound hab).2.1
      split at h
      · rename_i s' hs'
        injection h with h'
        subst h'
        have hb := firstMatchStart_bound hs'
        rw [List.length_drop] at hb
        omega
      · split at h
        · rename_i s' e' hse
          injection h with h'
          subst h'
          obtain ⟨_, he, _⟩ := pySearch_bound hse
          rw [List.length_drop] at he
          omega
        · exact p3Strategy3_le haend h

theorem priority4Start_le {t : List Char} {s : Nat}
    (h : priority4Start t = some s) : s ≤ t.length := by
  have hreg : ∀ kend, (p4Region t kend).length ≤ t.length - kend := by
    intro kend
    simp only [p4Region, List.length_take, List.length_drop]
    omega
  simp only [priority4Start] at h
  split at h
  · exact Option.noConfusion h
  · rename_i kstart kend hkw
    have hkend : kend ≤ t.length := (pySearch_bound hkw).2.1
    split at h
    · rename_i s' e' hse
      injection h with h'
      subst h'
      have hb := (pySearch_bound hse).2.1
      have hm : (matchTop patUnnumbered (p4Region t kend) s') = some e' := (pySearch_bound hse).2.2
      have := (pySearch_bound hse).1
      have hr := hreg kend
      omega
    · split at h
      · rename_i s' hs'
        injection h with h'
        subst h'
        have hb := firstMatchStart_bound hs'
        have hr := hreg kend
        omega
      · split at h
        · rename_i s' e' hse
          injection h with h'
          subst h'
          obtain ⟨h1, h2, _⟩ := pySearch_bound hse
          rw [List.length_drop] at h2
          omega
        · exact Option.noConfusion h

theorem priority5Start_le {t : List Char} {s : Nat}
    (h : priority5Start t = some s) : s ≤ t.length :=
  firstMatchStart_bound h

/-- Any start offset produced by the priority cascade lies within the text. -/
theorem findStartPos_le {t : List Char} {s : Nat}
    (h : findStartPos t = some s) : s ≤ t.length := by
  simp only [findStartPos] at h
  split at h
  · rename_i hp
    injection h with h'
    subst h'
    exact priority1Start_le hp
  · split at h
    · rename_i hp
      injection h with h'
      subst h'
      exact priority2Start_le hp
    · split at h
      · rename_i hp
        injection h with h'
        subst h'
        exact priority3Start_le hp
      · split at h
        · rename_i hp
          injection h with h'
          subst h'
          exact priority4Start_le hp
        · exact priority5Start_le h

/-- Every references-heading candidate lies within the text. -/
theorem refsCandidates_bound {t : List Char} {m : Nat × Nat}
    (h : m ∈ refsCandidates t) : m.1 ≤ m.2 ∧ m.2 ≤ t.length := by
  simp only [refsCandidates, List.mem_filter] at h
  obtain ⟨hmem, _⟩ := h
  obtain ⟨m1, m2⟩ := m
  exact finditerAux_bound hmem

/-- The end offset is always within the text. -/
theorem findEndPos_le (t : List Char) : findEndPos t ≤ t.length := by
  simp only [findEndPos]
  split
  · rename_i m hsel
    obtain ⟨_, l1, l2, heq, _⟩ := selectLastValid_some hsel
    have hmem : m ∈ refsCandidates t := by
      rw [heq]
      exact List.mem_append_right _ (List.mem_cons_self _ _)
    have := refsCandidates_bound hmem
    omega
  · exact le_refl _

/-! ## Bridging the computable thresholds to the decimal literals -/

theorem ratioOf_eq_div (c n : Nat) : ratioOf c n = (c : ℚ) / (n : ℚ) := by
  simp [ratioOf, Rat.mkRat_eq_div]

theorem thr30_eq : thr30 = (0.30 : ℚ) := by norm_num [thr30, Rat.mkRat_eq_div]
theorem thr20_eq : thr20 = (0.20 : ℚ) := by norm_num [thr20, Rat.mkRat_eq_div]
theorem thr15_eq : thr15 = (0.15 : ℚ) := by norm_num [thr15, Rat.mkRat_eq_div]
theorem thr03_eq : thr03 = (0.03 : ℚ) := by norm_num [thr03, Rat.mkRat_eq_div]

/-! ## Claim theorems -/

/-- C1: for every input text on which the corruption detector returns true,
    each extraction function (`extract_main_content`, `extract_references`,
    `extract_title_from_pdf`) returns the absence value `none`: the guard is
    the first statement of each function, before any pattern matching. -/
theorem corruption_gate_absolute (t : List Char)
    (h : is_corrupted_text t = true) :
    extract_main_content t = none ∧ extract_references t = none ∧
    extract_title_from_pdf t = none := by
  refine ⟨?_, ?_, ?_⟩
  · simp [extract_main_content, h]
  · simp [extract_references, h]
  · simp [extract_title_from_pdf, h]

/-- Witness for C1: the empty text is corrupted and all three extractors
    return `none` on it. -/
theorem corruption_gate_absolute_witness :
    is_corrupted_text [] = true ∧
    (extract_main_content [] = none ∧ extract_references [] = none ∧
     extract_title_from_pdf [] = none) :=
  ⟨rfl, corruption_gate_absolute [] rfl⟩

/-- C2: the corruption detector returns true exactly when the text is empty
    or, over the sample of the first `min(2000, length)` characters, the
    alphabetic ratio is below 0.30, the control-character ratio exceeds 0.20,
    the regex-counted letter-digit transition ratio exceeds 0.15, a character
    from the forbidden set {129, 141, 143, 144, 157} occurs, or the ratio of
    `=` and `;` exceeds 0.03. -/
theorem corruption_detector_iff_spec (t : List Char) :
    is_corrupted_text t = true ↔ corruptedSpec t := by
  simp only [is_corrupted_text, corruptedSpec, ratioOf_eq_div, thr30_eq,
    thr20_eq, thr15_eq, thr03_eq]
  by_cases h0 : t.length = 0
  · simp [if_pos h0, List.length_eq_zero.mp h0]
  · have hne : ¬(t = []) := by
      intro hh
      subst hh
      simp at h0
    simp only [if_neg h0, hne, false_or]
    split_ifs with h1 h2 h3 h4 h5 <;> simp_all

/-- C3: the shared references-heading selection picks, among the candidates
    (pattern matches starting in the last 50% of the document), the LAST one
    in document order that is validated by a citation-entry shape within the
    following 1500 characters; a non-validated candidate is never selected;
    and when no candidate validates, `extract_references` returns `none` and
    the end boundary of `extract_main_content` is the document length. -/
theorem refs_selection_last_validated (t : List Char) :
    (∀ m, selectRefsHeading t = some m →
        validRefs t m = true ∧
        (∃ l1 l2, refsCandidates t = l1 ++ m :: l2 ∧
          ∀ m' ∈ l2, validRefs t m' = false) ∧
        findEndPos t = m.1) ∧
    (selectRefsHeading t = none →
        extract_references t = none ∧ findEndPos t = t.length) := by
  constructor
  · intro m hsel
    obtain ⟨hval, l1, l2, heq, hpost⟩ := selectLastValid_some hsel
    refine ⟨hval, ⟨l1, l2, heq, hpost⟩, ?_⟩
    simp [findEndPos, hsel]
  · intro hsel
    constructor
    · cases hc : is_corrupted_text t
      · simp [extract_references, hc, hsel]
      · simp [extract_references, hc]
    · simp [findEndPos, hsel]

/-- Witness input for C3, positive case: the heading `Literatur` in the last
    half, followed by a DeLFI-style citation key. -/
def tC3a : List Char := "aaaa bbbb cccc dddd eeee\nLiteratur\n[AB12] Quelle".data

/-- Witness input for C3, negative case: no references heading at all. -/
def tC3b : List Char := "some plain words here\nmore words follow now".data

/-- Witness for C3: on `tC3a` the selection returns the candidate at
    offsets (25, 34) and it validates; on `tC3b` nothing is selected and
    `extract_references` reports absence. -/
theorem refs_selection_last_validated_witness :
    selectRefsHeading tC3a = some (25, 34) ∧
    (validRefs tC3a (25, 34) = true ∧
     (∃ l1 l2, refsCandidates tC3a = l1 ++ (25, 34) :: l2 ∧
       ∀ m' ∈ l2, validRefs tC3a m' = false) ∧
     findEndPos tC3a = 25) ∧
    selectRefsHeading tC3b = none ∧
    (extract_references tC3b = none ∧ findEndPos tC3b = tC3b.length) :=
  ⟨rfl, (refs_selection_last_validated tC3a).1 (25, 34) rfl, rfl,
   (refs_selection_last_validated tC3b).2 rfl⟩

/-- C4: when a Priority-1 pattern matches (start offset `s1`) and a
    Priority-5 pattern also matches at a different offset `s5`, the content
    start is `s1`, never `s5`. -/
theorem priority1_overrides_priority5 (t : List Char) (s1 s5 : Nat)
    (hc : is_corrupted_text t = false)
    (h1 : priority1Start t = some s1)
    (_h5 : priority5Start t = some s5)
    (hne : s1 ≠ s5) :
    findStartPos t = some s1 ∧
    extract_main_content t = some (listSlice t s1 (findEndPos t)) ∧
    findStartPos t ≠ some s5 := by
  have hf : findStartPos t = some s1 := by simp [findStartPos, h1]
  refine ⟨hf, ?_, ?_⟩
  · simp [extract_main_content, hc, hf]
  · simp [hf, hne]

/-- Witness input for C4: the Priority-1 line is longer than the 80-character
    title bound, so Priority 5's first match is the later `1 Anhang` line at
    offset 101 while Priority 1 matches at offset 0. -/
def tC4w : List Char :=
  "1 Einleitung in das Thema dieser Arbeit mit vielen weiteren Worten und noch mehr Text dahinter\nKurz.\n1 Anhang".data

set_option maxRecDepth 40000 in
/-- Witness for C4. -/
theorem priority1_overrides_priority5_witness :
    is_corrupted_text tC4w = false ∧ priority1Start tC4w = some 0 ∧
    priority5Start tC4w = some 101 ∧
    (findStartPos tC4w = some 0 ∧
     extract_main_content tC4w = some (listSlice tC4w 0 (findEndPos tC4w)) ∧
     findStartPos tC4w ≠ some 101) :=
  ⟨rfl, rfl, rfl,
   priority1_overrides_priority5 tC4w 0 101 rfl rfl rfl (by decide)⟩

/-- C6: when a start offset is found but no references-heading candidate
    validates, the end offset is the full document length and the returned
    content runs from the start offset to the end of the text. -/
theorem missing_refs_no_truncation (t : List Char) (s : Nat)
    (hc : is_corrupted_text t = false)
    (hs : findStartPos t = some s)
    (hn : selectRefsHeading t = none) :
    findEndPos t = t.length ∧ extract_main_content t = some (t.drop s) := by
  have he : findEndPos t = t.length := by simp [findEndPos, hn]
  refine ⟨he, ?_⟩
  have hsl : listSlice t s t.length = t.drop s := by
    simp only [listSlice]
    rw [← List.length_drop]
    exact List.take_length _
  simp [extract_main_content, hc, hs, he, hsl]

/-- Witness input for C6: a numbered introduction with no references
    section. -/
def tC6w : List Char := "1 Einleitung\nHier steht der ganze Haupttext.".data

/-- Witness for C6. -/
theorem missing_refs_no_truncation_witness :
    is_corrupted_text tC6w = false ∧ findStartPos tC6w = some 0 ∧
    selectRefsHeading tC6w = none ∧
    (findEndPos tC6w = tC6w.length ∧
     extract_main_content tC6w = some (tC6w.drop 0)) :=
  ⟨rfl, rfl, rfl, missing_refs_no_truncation tC6w 0 rfl rfl rfl⟩

/-- C10: the Priority-1 sub-patterns are tried in list order, so whenever the
    number-on-previous-line sub-pattern `p11` matches anywhere, the start
    offset is `p11`'s leftmost match start, regardless of where the other
    sub-patterns match. -/
theorem p11_first_in_subpattern_order (t : List Char) (s e : Nat)
    (h : pySearch p11 t = some (s, e)) :
    priority1Start t = some s ∧ findStartPos t = some s := by
  have h1 : priority1Start t = some s := by
    simp [priority1Start, firstMatchStart, h]
  exact ⟨h1, by simp [findStartPos, h1]⟩

/-- Witness input for C10: the same-line sub-pattern `p12` matches at offset
    0, strictly before `p11`'s match at offset 36; list order wins. -/
def tC10w : List Char := "1. Einleitung der Arbeit\nText hier.\n 1\nEinleitung".data

/-- Witness for C10. -/
theorem p11_first_in_subpattern_order_witness :
    pySearch p11 tC10w = some (36, 49) ∧
    pySearch p12 tC10w = some (0, 13) ∧ (0 : Nat) < 36 ∧
    (priority1Start tC10w = some 36 ∧ findStartPos tC10w = some 36) :=
  ⟨rfl, rfl, by decide, p11_first_in_subpattern_order tC10w 36 49 rfl⟩

/-- Counterexample input for C5: the Priority-1 pattern only matches on the
    last line, AFTER the validated references heading, so the chosen start
    offset 76 lies beyond the end offset 46. -/
def tC5x : List Char :=
  "Viele Worte stehen hier am Anfang des Textes.\nReferences\n[AB12] Quelle Text\n1 Einleitung".data

/-- Counterexample for C5: `extract_main_content` returns a (non-`none`)
    result — the empty Python slice — while the chosen start offset 76 is
    strictly greater than the end offset 46, so `start <= end` does not hold
    for every non-`None` result. -/
theorem main_span_start_le_end_counterexample :
    extract_main_content tC5x = some [] ∧
    findStartPos tC5x = some 76 ∧ findEndPos tC5x = 46 ∧ (46 : Nat) < 76 :=
  ⟨rfl, rfl, rfl, by decide⟩

/-- C5 amended: whenever `extract_main_content` returns a result, the start
    and end offsets each lie within the input text and the result is the
    Python slice `text[start:end]` — empty when `end ≤ start`; `start < end`
    holds whenever the result is nonempty, but `start ≤ end` does not hold
    in general (see `main_span_start_le_end_counterexample`). -/
theorem main_span_within_text (t : List Char) (r : List Char)
    (h : extract_main_content t = some r) :
    ∃ s, findStartPos t = some s ∧ s ≤ t.length ∧ findEndPos t ≤ t.length ∧
      r = listSlice t s (findEndPos t) ∧
      (r ≠ [] → s < findEndPos t) := by
  simp only [extract_main_content] at h
  split at h
  · exact Option.noConfusion h
  · split at h
    · exact Option.noConfusion h
    · rename_i s hs
      injection h with h'
      refine ⟨s, hs, findStartPos_le hs, findEndPos_le t, h'.symm, ?_⟩
      intro hne
      by_contra hlt
      push_neg at hlt
      apply hne
      rw [← h']
      simp [listSlice, Nat.sub_eq_zero_of_le hlt]

/-- Witness input for C5 (amended): a well-formed document. -/
def tC5w : List Char := "1 Einleitung\nKurzer Text der Hauptsache.".data

/-- Witness for C5 (amended). -/
theorem main_span_within_text_witness :
    extract_main_content tC5w = some tC5w ∧
    (∃ s, findStartPos tC5w = some s ∧ s ≤ tC5w.length ∧
      findEndPos tC5w ≤ tC5w.length ∧
      tC5w = listSlice tC5w s (findEndPos tC5w) ∧
      (tC5w ≠ [] → s < findEndPos tC5w)) :=
  ⟨rfl, main_span_within_text tC5w tC5w rfl⟩

/-- C7: on a validated heading, `extract_references` returns the stripped
    text after the heading's end offset, trimmed by the first of the three
    trailing-matter patterns (A: lone page number, B: page number + author,
    C: title fragment + page number) that matches — each returning
    immediately — and the untrimmed (still stripped) block when none
    matches. -/
theorem refs_trailing_trim (t : List Char) (m : Nat × Nat)
    (hc : is_corrupted_text t = false)
    (hsel : selectRefsHeading t = some m) :
    (∀ s e, pySearch patTrailA (pyStrip (t.drop m.2)) = some (s, e) →
        extract_references t = some (pyStrip ((pyStrip (t.drop m.2)).take s))) ∧
    (pySearch patTrailA (pyStrip (t.drop m.2)) = none →
      ∀ s e, pySearch patTrailB (pyStrip (t.drop m.2)) = some (s, e) →
        extract_references t = some (pyStrip ((pyStrip (t.drop m.2)).take s))) ∧
    (pySearch patTrailA (pyStrip (t.drop m.2)) = none →
      pySearch patTrailB (pyStrip (t.drop m.2)) = none →
      ∀ s e, pySearch patTrailC (pyStrip (t.drop m.2)) = some (s, e) →
        extract_references t = some (pyStrip ((pyStrip (t.drop m.2)).take s))) ∧
    (pySearch patTrailA (pyStrip (t.drop m.2)) = none →
      pySearch patTrailB (pyStrip (t.drop m.2)) = none →
      pySearch patTrailC (pyStrip (t.drop m.2)) = none →
      extract_references t = some (pyStrip (pyStrip (t.drop m.2)))) := by
  refine ⟨?_, ?_, ?_, ?_⟩
  · intro s e hA
    simp [extract_references, hc, hsel, hA]
  · intro hA s e hB
    simp [extract_references, hc, hsel, hA, hB]
  · intro hA hB s e hC
    simp [extract_references, hc, hsel, hA, hB, hC]
  · intro hA hB hC
    simp [extract_references, hc, hsel, hA, hB, hC]

/-- Witness input for C7: heading `Literatur` in the last half, a valid
    citation entry, and a trailing lone page-number line `449`. -/
def tC7w : List Char :=
  "wwww xxxx yyyy zzzz vvvv uuuu\nLiteratur\n[BBS01] Beispiel\n449".data

/-- Witness for C7: pattern A fires and removes the trailing page number. -/
theorem refs_trailing_trim_witness :
    is_corrupted_text tC7w = false ∧
    selectRefsHeading tC7w = some (30, 39) ∧
    pySearch patTrailA (pyStrip (tC7w.drop 39)) = some (16, 20) ∧
    extract_references tC7w = some (pyStrip ((pyStrip (tC7w.drop 39)).take 16)) ∧
    extract_references tC7w = some "[BBS01] Beispiel".data :=
  ⟨rfl, rfl, rfl,
   (refs_trailing_trim tC7w (30, 39) rfl rfl).1 16 20 rfl, rfl⟩

/-- The qualifying condition a line must meet to be collected as a title
    line: nonempty, longer than 5 characters and not a pure digit line. -/
def titleLineOk (l : List Char) : Bool :=
  decide (5 < l.length) && !pyIsDigitStr l

theorem collectGo_invariant (lines : List (List Char)) (maxLines : Nat) :
    ∀ idxs acc, acc.length ≤ maxLines → acc.all titleLineOk = true →
      (collectGo lines maxLines idxs acc).length ≤ maxLines ∧
      (collectGo lines maxLines idxs acc).all titleLineOk = true := by
  intro idxs
  induction idxs with
  | nil =>
    intro acc h1 h2
    exact ⟨h1, h2⟩
  | cons i rest ih =>
    intro acc h1 h2
    simp only [collectGo]
    split_ifs with hA hB hC hD hE hF
    · exact ih acc h1 h2
    · exact ⟨h1, h2⟩
    · exact ⟨h1, h2⟩
    · exact ⟨h1, h2⟩
    · exact ⟨h1, h2⟩
    · refine ih _ ?_ ?_
      · simp only [List.length_append, List.length_cons, List.length_nil]
        omega
      · have hok : titleLineOk (pyStrip (nthLine lines i)) = true := by
          simp only [Bool.and_assoc, Bool.and_eq_true] at hF
          simp [titleLineOk, hF.2.1, hF.2.2]
        simp [List.all_append, h2, hok]
    · exact ih acc h1 h2

/-- C8 amended: accumulation stops once `max_lines` title lines have been
    collected (never more than `max_lines` lines result), and a non-empty
    line of length at most 5 or a pure-digit line is never itself collected;
    but such a line does not stop accumulation — later qualifying lines may
    still be collected (see `title_short_line_not_stop_counterexample`). -/
theorem title_lines_bounded_and_filtered (t : List Char) (maxLines maxChars : Nat) :
    (titleLinesOf t maxLines maxChars).length ≤ maxLines ∧
    (titleLinesOf t maxLines maxChars).all titleLineOk = true := by
  simp only [titleLinesOf]
  exact collectGo_invariant _ _ _ [] (Nat.zero_le _) rfl

/-- Counterexample input for C8: the second line `ab` is non-empty with
    length 2 ≤ 5; the third line follows it. -/
def tC8x : List Char := "Erste Grosse Zeile Lang\nab\nZweite Lange Zeile Hier".data

/-- Counterexample for C8: the short line `ab` (length ≤ 5) is merely
    skipped; the line AFTER it is still collected as a title line and
    appears in the extracted title, so accumulation does not stop there. -/
theorem title_short_line_not_stop_counterexample :
    pyStrip (nthLine (splitNL (tC8x.take 800)) 1) = "ab".data ∧
    ("ab".data.length ≤ 5) ∧
    titleLinesOf tC8x =
      ["Erste Grosse Zeile Lang".data, "Zweite Lange Zeile Hier".data] ∧
    extract_title_from_pdf tC8x =
      some "Erste Grosse Zeile Lang Zweite Lange Zeile Hier".data :=
  ⟨rfl, by decide, rfl, rfl⟩

/-- Agreement of the exception-checked corruption detector with the plain
    one: the empty-text guard runs before any division, and on nonempty text
    the sample is nonempty, so no division ever has a zero denominator. -/
theorem is_corrupted_checked_eq (t : List Char) :
    is_corrupted_text_checked t = some (is_corrupted_text t) := by
  by_cases h0 : t.length = 0
  · simp [is_corrupted_text_checked, is_corrupted_text, h0]
  · have hs : ¬((sampleOf t 2000).length = 0) := by
      simp only [sampleOf, List.length_take]
      omega
    simp only [is_corrupted_text_checked, is_corrupted_text, if_neg h0,
      ratioChecked, if_neg hs, Option.some_bind]
    split_ifs <;> rfl

/-- C9: every extraction function is total on every input: the
    exception-checked variants (where `none` at the outer layer models a
    raised Python exception, in particular a division by zero) always return
    `some` of the plain embedding's value. -/
theorem extractors_never_raise (t : List Char) :
    is_corrupted_text_checked t = some (is_corrupted_text t) ∧
    extract_main_content_checked t = some (extract_main_content t) ∧
    extract_references_checked t = some (extract_references t) ∧
    extract_title_from_pdf_checked t = some (extract_title_from_pdf t) := by
  have hc := is_corrupted_checked_eq t
  refine ⟨hc, ?_, ?_, ?_⟩
  · simp only [extract_main_content_checked, hc, Option.map_some']
    rfl
  · simp only [extract_references_checked, hc, Option.map_some']
    rfl
  · simp only [extract_title_from_pdf_checked, hc, Option.map_some']
    rfl

end PdfExtract

